import Mathlib

/-!
Shallow embedding of the GetThis collection pipeline
(`src/OrcCommand/GetThis_Run.cpp` of dfir-orc) and verification of the
frozen claims about it.

Every definition below is translated from the C++ source unless its doc
comment starts with `Modelled from the spec:`, which marks a contract of
an external collaborator (or of a header that is not part of the given
sources) taken from the natural-language specification.

Machine integers (DWORD, DWORDLONG, USHORT, ULONG) are modelled as `Nat`;
none of the verified paths overflow-wraps, and the sentinel comparisons of
the source (`!= INFINITE`) are kept literally.  HRESULTs are modelled as an
enumeration of the constants the translated code actually uses.
-/

namespace GetThis

/-- HRESULT values used by the translated code.  `S_OK` and `S_FALSE` are
success codes, the `E_*` constructors are failure codes. -/
inductive HRes where
  | S_OK
  | S_FALSE
  | E_FAIL
  | E_POINTER
  | E_INVALIDARG
  | E_NOTIMPL
  | E_ABORT
deriving DecidableEq, Repr

/-- The C `FAILED(hr)` macro: true exactly on the error constants. -/
def FAILED : HRes → Bool
  | .S_OK => false
  | .S_FALSE => false
  | _ => true

/-- The `LimitStatus` enumeration of GetThis. -/
inductive LimitStatus where
  | NoLimits
  | SampleWithinLimits
  | GlobalSampleCountLimitReached
  | GlobalMaxBytesPerSample
  | GlobalMaxBytesTotal
  | LocalSampleCountLimitReached
  | LocalMaxBytesPerSample
  | LocalMaxBytesTotal
  | FailedToComputeLimits
deriving DecidableEq, Repr

/-- The Win32 `INFINITE` constant (0xFFFFFFFF), used by GetThis as the
"unlimited" sentinel for every `max-*` field. -/
def INFINITE : Nat := 4294967295

/-- The `Limits` record of GetThis: maxima, accumulators and sticky flags
(`GetThis.h` counterpart of the fields used by `GetThis_Run.cpp`). -/
structure Limits where
  dwlMaxBytesTotal : Nat
  dwlAccumulatedBytesTotal : Nat
  dwlMaxBytesPerSample : Nat
  dwMaxSampleCount : Nat
  dwAccumulatedSampleCount : Nat
  bIgnoreLimits : Bool
  bMaxSampleCountReached : Bool
  bMaxBytesTotalReached : Bool
  bMaxBytesPerSampleReached : Bool
deriving DecidableEq, Repr

/-- `Main::SampleLimitStatus` (GetThis_Run.cpp:454-487).  The source is a
sequence of guarded early returns; each `if (max != INFINITE) if (trigger)
return X;` pair is rendered as a single conjunction since falling through
the outer test and failing the inner test continue at the same point. -/
def SampleLimitStatus (GlobalLimits LocalLimits : Limits) (DataSize : Nat) : LimitStatus :=
  if GlobalLimits.bIgnoreLimits then .NoLimits
  else if GlobalLimits.dwMaxSampleCount ≠ INFINITE ∧
      GlobalLimits.dwAccumulatedSampleCount ≥ GlobalLimits.dwMaxSampleCount then
    .GlobalSampleCountLimitReached
  else if LocalLimits.dwMaxSampleCount ≠ INFINITE ∧
      LocalLimits.dwAccumulatedSampleCount ≥ LocalLimits.dwMaxSampleCount then
    .LocalSampleCountLimitReached
  else if GlobalLimits.dwlMaxBytesPerSample ≠ INFINITE ∧
      DataSize > GlobalLimits.dwlMaxBytesPerSample then
    .GlobalMaxBytesPerSample
  else if GlobalLimits.dwlMaxBytesTotal ≠ INFINITE ∧
      DataSize + GlobalLimits.dwlAccumulatedBytesTotal > GlobalLimits.dwlMaxBytesTotal then
    .GlobalMaxBytesTotal
  else if LocalLimits.dwlMaxBytesPerSample ≠ INFINITE ∧
      DataSize > LocalLimits.dwlMaxBytesPerSample then
    .LocalMaxBytesPerSample
  else if LocalLimits.dwlMaxBytesTotal ≠ INFINITE ∧
      DataSize + LocalLimits.dwlAccumulatedBytesTotal > LocalLimits.dwlMaxBytesTotal then
    .LocalMaxBytesTotal
  else .SampleWithinLimits

/-- First-trigger-wins evaluation of an ordered list of (condition, status)
checks, with a default when no check triggers.  Used to phrase the
specification's description of limit evaluation. -/
def firstTriggered : List (Bool × LimitStatus) → LimitStatus → LimitStatus
  | [], dflt => dflt
  | (c, st) :: rest, dflt => if c then st else firstTriggered rest dflt

/-- Limit evaluation exactly as the specification words it: `NoLimits` on
ignore-limits, otherwise an ordered list of checks — global count, local
count, global per-sample bytes, global total bytes, local per-sample bytes,
local total bytes — each skipped when its maximum is the unlimited
sentinel, first trigger wins, `SampleWithinLimits` when none trigger. -/
def sampleLimitStatusSpec (g l : Limits) (DataSize : Nat) : LimitStatus :=
  if g.bIgnoreLimits then .NoLimits
  else
    firstTriggered
      [ (decide (g.dwMaxSampleCount ≠ INFINITE ∧
            g.dwAccumulatedSampleCount ≥ g.dwMaxSampleCount),
          .GlobalSampleCountLimitReached),
        (decide (l.dwMaxSampleCount ≠ INFINITE ∧
            l.dwAccumulatedSampleCount ≥ l.dwMaxSampleCount),
          .LocalSampleCountLimitReached),
        (decide (g.dwlMaxBytesPerSample ≠ INFINITE ∧
            DataSize > g.dwlMaxBytesPerSample),
          .GlobalMaxBytesPerSample),
        (decide (g.dwlMaxBytesTotal ≠ INFINITE ∧
            DataSize + g.dwlAccumulatedBytesTotal > g.dwlMaxBytesTotal),
          .GlobalMaxBytesTotal),
        (decide (l.dwlMaxBytesPerSample ≠ INFINITE ∧
            DataSize > l.dwlMaxBytesPerSample),
          .LocalMaxBytesPerSample),
        (decide (l.dwlMaxBytesTotal ≠ INFINITE ∧
            DataSize + l.dwlAccumulatedBytesTotal > l.dwlMaxBytesTotal),
          .LocalMaxBytesTotal) ]
      .SampleWithinLimits

/-- The `ContentType` enumeration (DATA, STRINGS, RAW, plus the
unselected/invalid default the formatting code maps to an empty tag). -/
inductive ContentType where
  | INVALID
  | DATA
  | STRINGS
  | RAW
deriving DecidableEq, Repr

/-- The `ContentSpec` record: a content type plus the STRINGS extraction
bounds.  The source field `Type` is rendered `ctype` because `Type` is
reserved in Lean. -/
structure ContentSpec where
  ctype : ContentType
  MinChars : Nat
  MaxChars : Nat
deriving DecidableEq, Repr

/-- `MFT_SEGMENT_REFERENCE`: a ULONG low part, a USHORT high part and a
USHORT sequence number. -/
structure MFTSegmentReference where
  SegmentNumberLowPart : Nat
  SegmentNumberHighPart : Nat
  SequenceNumber : Nat
deriving DecidableEq, Repr

/-- The four FILETIME fields shared by `$STANDARD_INFORMATION` and the
`$FILE_NAME` `Info` block. -/
structure FileInfoTimes where
  CreationTime : Nat
  LastModificationTime : Nat
  LastAccessTime : Nat
  LastChangeTime : Nat
deriving DecidableEq, Repr

/-- The `FILE_NAME` NTFS attribute record: parent directory reference,
times, and a counted (not nul-terminated) file name whose length is the
`FileNameLength` character count. -/
structure FileNameRecord where
  ParentDirectory : MFTSegmentReference
  Info : FileInfoTimes
  FileNameLength : Nat
  FileName : String
deriving DecidableEq, Repr

/-- Uppercase-hex rendering of `n`, zero-padded on the left to width `w`
(the effect of the `%*.*X` conversion with width = precision = `w`; values
needing more than `w` digits print all their digits). -/
def hexPad (w : Nat) (n : Nat) : String :=
  let ds := (Nat.toDigits 16 n).map Char.toUpper
  String.mk (List.replicate (w - ds.length) '0' ++ ds)

/-- The character class remapped to `_` by `CreateSampleFileName`:
`iswspace` (C locale whitespace) together with `:` and `#`. -/
def isForbiddenNameChar (c : Char) : Bool :=
  c = ' ' || c = '\t' || c = '\n' || c = '\x0b' || c = '\x0c' || c = '\r' ||
    c = ':' || c = '#'

/-- The final pass of `CreateSampleFileName` (GetThis_Run.cpp:361-364):
every whitespace, `:` or `#` character is replaced by `_`. -/
def sanitizeSampleName (s : String) : String :=
  String.mk (s.data.map (fun c => if isForbiddenNameChar c then '_' else c))

/-- Content-type tag chosen by `CreateSampleFileName` (the `pContent`
switch, GetThis_Run.cpp:260-274). -/
def contentTag : ContentType → String
  | .DATA => "data"
  | .STRINGS => "strings"
  | .RAW => "raw"
  | .INVALID => ""

/-- The three fixed-width hex fields of the parent directory reference, in
the order the format strings print them: sequence number (2 bytes, width
4), segment-high (2 bytes, width 4), segment-low (4 bytes, width 8). -/
def parentRefHex (ref : MFTSegmentReference) : String :=
  hexPad 4 ref.SequenceNumber ++ hexPad 4 ref.SegmentNumberHighPart ++
    hexPad 8 ref.SegmentNumberLowPart

/-- `Main::CreateSampleFileName` (GetThis_Run.cpp:247-367).  A null
file-name record fails with `E_POINTER`; otherwise one of four `swprintf_s`
templates selected by (`idx`, `DataName`) builds the name — parent
reference hex fields, the file name truncated to `FileNameLength`
(`%.*s`), the optional attribute data name, the decimal index when
`idx > 0` and the content tag — and the result is sanitized.  On failure
no name is assigned (the `Except.error` carries none). -/
def CreateSampleFileName (content : ContentSpec) (pFileName : Option FileNameRecord)
    (DataName : String) (idx : Nat) : Except HRes String :=
  match pFileName with
  | none => .error .E_POINTER
  | some fn =>
    let pContent := contentTag content.ctype
    let ppp := parentRefHex fn.ParentDirectory
    let truncName := fn.FileName.take fn.FileNameLength
    let tmpName :=
      if idx ≠ 0 then
        if DataName ≠ "" then
          ppp ++ "_" ++ truncName ++ "_" ++ DataName ++ "_" ++ toString idx ++ "_" ++ pContent
        else
          ppp ++ "__" ++ truncName ++ "_" ++ toString idx ++ "_" ++ pContent
      else
        if DataName ≠ "" then
          ppp ++ "__" ++ truncName ++ "_" ++ DataName ++ "_" ++ pContent
        else
          ppp ++ "_" ++ truncName ++ "_" ++ pContent
    .ok (sanitizeSampleName tmpName)

/-- Joining of name components with `_` separators, used to phrase the
specification's four naming templates (an empty component yields the
double underscore of the `PPP__NAME...` templates). -/
def joinParts : List String → String
  | [] => ""
  | [p] => p
  | p :: rest => p ++ "_" ++ joinParts rest

/-- Sample-name generation exactly as the specification words it: the
three fixed-width hex fields (each printed with twice its byte width in
hex digits), the file name truncated to name-length, the data name when
non-empty, the decimal index when positive and the content tag, joined per
the four idx-by-data-name templates, then sanitized. -/
def sampleNameSpec (content : ContentSpec) (fn : FileNameRecord)
    (DataName : String) (idx : Nat) : String :=
  let ppp := hexPad (2 * 2) fn.ParentDirectory.SequenceNumber ++
    hexPad (2 * 2) fn.ParentDirectory.SegmentNumberHighPart ++
    hexPad (2 * 4) fn.ParentDirectory.SegmentNumberLowPart
  let nm := fn.FileName.take fn.FileNameLength
  let tag := contentTag content.ctype
  let parts :=
    if idx = 0 then
      if DataName = "" then [ppp, nm, tag]
      else [ppp, "", nm, DataName, tag]
    else
      if DataName = "" then [ppp, "", nm, toString idx, tag]
      else [ppp, nm, DataName, toString idx, tag]
  sanitizeSampleName (joinParts parts)

/-- The spec-level error kinds of §7 of the specification. -/
inductive ErrorKind where
  | InvalidArgument
  | ResourceInitFailure
  | IoFailure
  | Fatal
deriving DecidableEq, Repr

/-- Modelled from the spec: §7 classifies the HRESULTs raised at the
argument-validation sites (missing file-name record `E_POINTER`, empty
sample name `E_INVALIDARG`, unsupported output type `E_NOTIMPL`) as the
*InvalidArgument* kind, resource-setup failures as *ResourceInitFailure*
and the remaining failures as *IoFailure* or *Fatal*. -/
def errorKindOf : HRes → Option ErrorKind
  | .E_POINTER => some .InvalidArgument
  | .E_INVALIDARG => some .InvalidArgument
  | .E_NOTIMPL => some .InvalidArgument
  | .E_FAIL => some .Fatal
  | .E_ABORT => some .Fatal
  | .S_OK => none
  | .S_FALSE => none

/-- Byte streams as chained by `ConfigureSampleStreams`: an attribute data
stream, an attribute raw on-disk stream, a strings extractor wrapping an
inner stream with its (min-chars, max-chars) configuration, and the two
observing hash readers wrapping an inner stream with their algorithm set
(0 encodes `Algorithm::Undefined`). -/
inductive Stream where
  | dataStream (sz : Nat)
  | rawStream (sz : Nat)
  | stringsStream (inner : Stream) (MinChars MaxChars : Nat)
  | cryptoHashStream (inner : Stream) (algs : Nat)
  | fuzzyHashStream (inner : Stream) (algs : Nat)
deriving DecidableEq, Repr

/-- `ByteStream::GetSize` over the modelled chain.  The hash readers are
pure observers and report their upstream size; the size a `StringsStream`
reports after `OpenForStrings` is not determined by the given sources and
is abstracted as the inner size (no verified claim depends on it). -/
def streamSize : Stream → Nat
  | .dataStream sz => sz
  | .rawStream sz => sz
  | .stringsStream inner _ _ => streamSize inner
  | .cryptoHashStream inner _ => streamSize inner
  | .fuzzyHashStream inner _ => streamSize inner

/-- One matching name of a match (`FileFind::Match::NameMatch`): the full
NTFS path and the `$FILE_NAME` record behind `FILENAME()` (an option — the
source pointer may be null). -/
structure FileReference where
  FullPathName : String
  FILENAME : Option FileNameRecord
deriving DecidableEq, Repr

/-- One matching attribute of a match: instance id, NTFS attribute type
(source field `Type`, rendered `attrType`), attribute name, its two
streams and the optional matched yara rules. -/
structure AttributeRef where
  InstanceID : Nat
  attrType : Nat
  AttrName : String
  DataStream : Stream
  RawStream : Stream
  YaraRules : Option (List String)
deriving DecidableEq, Repr

/-- A `FileFind::Match`: file record number, the volume reader's serial
number, the snapshot id when the reader is a snapshot reader, standard
information times, matching names, matching attributes and the matched
term's description. -/
structure Match where
  FRN : Nat
  VolumeSerial : Nat
  SnapshotID : Option Nat
  StandardInformation : FileInfoTimes
  MatchingNames : List FileReference
  MatchingAttributes : List AttributeRef
  TermDescription : String
deriving DecidableEq, Repr

/-- A registry element (`Main::SampleRef`).  Field defaults are the C++
default-constructed values: empty name and buffers, `OffLimits = false`,
null streams. -/
structure SampleRef where
  SampleName : String := ""
  FRN : Nat := 0
  VolumeSerial : Nat := 0
  SnapshotID : Nat := 0
  InstanceID : Nat := 0
  AttributeIndex : Nat := 0
  Matches : List Match := []
  Content : ContentSpec := ⟨.INVALID, 0, 0⟩
  CollectionDate : Nat := 0
  OffLimits : Bool := false
  SampleSize : Nat := 0
  HashStream : Option Stream := none
  FuzzyHashStream : Option Stream := none
  CopyStream : Option Stream := none
  MD5 : List Nat := []
  SHA1 : List Nat := []
  SHA256 : List Nat := []
  SSDeep : List Nat := []
  TLSH : List Nat := []
deriving DecidableEq, Repr

/-- The configuration fields of GetThis used by the verified paths. -/
structure Config where
  content : ContentSpec
  CryptoHashAlgs : Nat
  FuzzyHashAlgs : Nat
  bReportAll : Bool
deriving DecidableEq, Repr

/-- A `SampleSpec` from the configuration: rule-set name, per-rule limits
and its content spec. -/
structure SampleSpec where
  Name : String
  PerSampleLimits : Limits
  Content : ContentSpec
deriving DecidableEq, Repr

instance : Inhabited FileNameRecord :=
  ⟨⟨⟨0, 0, 0⟩, ⟨0, 0, 0, 0⟩, 0, ""⟩⟩

instance : Inhabited AttributeRef :=
  ⟨⟨0, 0, "", .dataStream 0, .rawStream 0, none⟩⟩

instance : Inhabited FileReference :=
  ⟨⟨"", none⟩⟩

instance : Inhabited Match :=
  ⟨⟨0, 0, none, ⟨0, 0, 0, 0⟩, [], [], ""⟩⟩

instance : Inhabited SampleRef :=
  ⟨{}⟩

/-- Modelled from the spec: the `SampleSet` comparator is declared in
`GetThis.h`, which is not among the given sources; §3 of the specification
fixes the registry key as (volume-serial, FRN, attribute-instance-id). -/
abbrev SampleKey := Nat × Nat × Nat

/-- Registry key of a sample (see `SampleKey`). -/
def sampleKey (s : SampleRef) : SampleKey :=
  (s.VolumeSerial, s.FRN, s.InstanceID)

/-- `Samples.find(sampleRef)`: lookup by registry key. -/
def findSample (samples : List SampleRef) (k : SampleKey) : Option SampleRef :=
  samples.find? (fun s => sampleKey s == k)

/-- The attribute the sample was built from:
`sampleRef.Matches.front()->MatchingAttributes[sampleRef.AttributeIndex]`. -/
def sampleAttr (s : SampleRef) : AttributeRef :=
  (s.Matches.headD default).MatchingAttributes.getD s.AttributeIndex default

/-- `Main::ConfigureSampleStreams` (GetThis_Run.cpp:369-452): empty sample
name fails with `E_INVALIDARG`; otherwise the base stream is selected by
content type (`STRINGS` wraps the data stream in a strings extractor whose
bounds fall back to the global configuration exactly when the sample's
`MaxChars` and `MinChars` are both zero), then a crypto-hash reader is
chained when crypto algorithms are configured and a fuzzy-hash reader when
fuzzy algorithms are configured; the final handle becomes `CopyStream` and
its size `SampleSize`.  The `OpenToRead`/`OpenForStrings` calls of the
external stream classes are modelled as succeeding. -/
def ConfigureSampleStreams (cfg : Config) (sampleRef : SampleRef) : SampleRef × HRes :=
  if sampleRef.SampleName = "" then (sampleRef, .E_INVALIDARG)
  else
    let attr := sampleAttr sampleRef
    let stream : Stream :=
      match sampleRef.Content.ctype with
      | .DATA => attr.DataStream
      | .STRINGS =>
        if sampleRef.Content.MaxChars = 0 ∧ sampleRef.Content.MinChars = 0 then
          .stringsStream attr.DataStream cfg.content.MinChars cfg.content.MaxChars
        else
          .stringsStream attr.DataStream sampleRef.Content.MinChars sampleRef.Content.MaxChars
      | .RAW => attr.RawStream
      | .INVALID => attr.DataStream
    let hashStream : Option Stream :=
      if cfg.CryptoHashAlgs ≠ 0 then some (.cryptoHashStream stream cfg.CryptoHashAlgs)
      else sampleRef.HashStream
    let up1 : Stream :=
      if cfg.CryptoHashAlgs ≠ 0 then .cryptoHashStream stream cfg.CryptoHashAlgs
      else stream
    let fuzzyStream : Option Stream :=
      if cfg.FuzzyHashAlgs ≠ 0 then some (.fuzzyHashStream up1 cfg.FuzzyHashAlgs)
      else sampleRef.FuzzyHashStream
    let up2 : Stream :=
      if cfg.FuzzyHashAlgs ≠ 0 then .fuzzyHashStream up1 cfg.FuzzyHashAlgs
      else up1
    ({ sampleRef with
        HashStream := hashStream,
        FuzzyHashStream := fuzzyStream,
        CopyStream := some up2,
        SampleSize := streamSize up2 }, .S_OK)

/-- The digest extraction methods of the external `CryptoHashStream` and
`FuzzyHashStream` classes; the theorems quantify over an arbitrary
library so nothing depends on the digests' values. -/
structure HashLib where
  md5 : Stream → List Nat
  sha1 : Stream → List Nat
  sha256 : Stream → List Nat
  ssdeep : Stream → List Nat
  tlsh : Stream → List Nat

/-- A concrete hash library used only to instantiate witnesses. -/
def trivialHashLib : HashLib :=
  ⟨fun _ => [], fun _ => [], fun _ => [], fun _ => [], fun _ => []⟩

/-- `Main::FinalizeHashes` (GetThis_Run.cpp:831-862): returns immediately
when the sample has no crypto-hash stream; otherwise extracts MD5, SHA1
and SHA256, then SSDEEP and TLSH when a fuzzy-hash stream exists.  The
off-limits/report-all branch drains `CopyStream` into a null sink, an I/O
side effect with no counterpart on the modelled record. -/
def FinalizeHashes (lib : HashLib) (sample : SampleRef) : SampleRef :=
  match sample.HashStream with
  | none => sample
  | some h =>
    let s1 := { sample with MD5 := lib.md5 h, SHA1 := lib.sha1 h, SHA256 := lib.sha256 h }
    match s1.FuzzyHashStream with
    | none => s1
    | some f => { s1 with SSDeep := lib.ssdeep f, TLSH := lib.tlsh f }

/-- A typed CSV cell, one per column-writer call of the table output. -/
inductive Field where
  | str (s : String)
  | int (n : Nat)
  | bytes (b : List Nat)
  | filesize (n : Nat)
  | filetime (t : Nat)
  | guid (g : Nat)
  | flags (f : Nat)
  | nothing
deriving DecidableEq, Repr

/-- The `(LARGE_INTEGER*)&ParentDirectory` reinterpretation: the
`MFT_SEGMENT_REFERENCE` layout (ULONG low, USHORT high, USHORT sequence)
read as a little-endian u64. -/
def segmentRefAsU64 (ref : MFTSegmentReference) : Nat :=
  ref.SegmentNumberLowPart + ref.SegmentNumberHighPart * 4294967296 +
    ref.SequenceNumber * 281474976710656

/-- The yara-rule join of `AddSampleRefToCSV`: `ostream_iterator` with
delimiter `"; "` appends the delimiter after every element. -/
def rulesJoined (rs : List String) : String :=
  rs.foldl (fun acc r => acc ++ r ++ "; ") ""

/-- One CSV row of `Main::AddSampleRefToCSV` (GetThis_Run.cpp:512-605),
for one (match, matching-name) pair: the 28 column writes in source
order.  Column 6 is the sample name, written as nothing when the sample is
off-limits. -/
def csvRowForName (ComputerName : String) (sample : SampleRef) (m : Match)
    (name : FileReference) : List Field :=
  let fnrec := name.FILENAME.getD default
  let attr := m.MatchingAttributes.getD sample.AttributeIndex default
  [ .str ComputerName,
    .int m.VolumeSerial,
    .int (segmentRefAsU64 fnrec.ParentDirectory),
    .int m.FRN,
    .str name.FullPathName,
    (if sample.OffLimits then .nothing else .str sample.SampleName),
    .filesize sample.SampleSize,
    .bytes sample.MD5,
    .bytes sample.SHA1,
    .str m.TermDescription,
    (match sample.Content.ctype with
      | .DATA => .str "data"
      | .STRINGS => .str "strings"
      | _ => .nothing),
    .filetime sample.CollectionDate,
    .filetime m.StandardInformation.CreationTime,
    .filetime m.StandardInformation.LastModificationTime,
    .filetime m.StandardInformation.LastAccessTime,
    .filetime m.StandardInformation.LastChangeTime,
    .filetime fnrec.Info.CreationTime,
    .filetime fnrec.Info.LastModificationTime,
    .filetime fnrec.Info.LastAccessTime,
    .filetime fnrec.Info.LastChangeTime,
    .flags attr.attrType,
    .str attr.AttrName,
    .int sample.InstanceID,
    .guid sample.SnapshotID,
    .bytes sample.SHA256,
    .bytes sample.SSDeep,
    .bytes sample.TLSH,
    (match attr.YaraRules with
      | some rs => .str (rulesJoined rs)
      | none => .nothing) ]

/-- `Main::AddSampleRefToCSV`: one row per (match, matching-name) pair of
the sample, in the nested loop order of the source. -/
def AddSampleRefToCSV (ComputerName : String) (sample : SampleRef) : List (List Field) :=
  sample.Matches.flatMap fun m =>
    m.MatchingNames.map (csvRowForName ComputerName sample m)

/-- Modelled from the spec: `FileFind::Match::GetMatchFullName` is defined
outside the given sources; it renders the display name of a matching name
(the full NTFS path, qualified by the attribute).  Only its value as an
archive display string is used here. -/
def GetMatchFullName (m : Match) : String :=
  (m.MatchingNames.headD default).FullPathName

/-- Observable sink actions, in emission order. -/
inductive SinkEvent where
  | addStreamStart (entryName displayName : String)
  | encoderConsumed (entryName : String)
  | finalizeHashesEv (sampleName : String)
  | csvRow (row : List Field)
  | fileWritten (path : String)
deriving DecidableEq, Repr

/-- `Main::WriteSample` for the archive sink (GetThis_Run.cpp:714-746):
off-limits samples are skipped entirely; otherwise the copy stream is
appended to the archive under the sample name with a per-entry completion
callback that finalizes hashes and emits the sample's CSV rows.
Modelled from the spec: the external `ArchiveCreate::AddStream` consumes
the entry's stream and then invokes the completion callback exactly once
(§5/§6 of the specification), so the event trace is the entry start, the
encoder consumption, then the callback body in source order. -/
def WriteSampleArchive (lib : HashLib) (ComputerName : String) (sample : SampleRef) :
    List SinkEvent × SampleRef :=
  if sample.OffLimits then ([], sample)
  else
    let strName := GetMatchFullName (sample.Matches.headD default)
    let s1 := FinalizeHashes lib sample
    ([.addStreamStart sample.SampleName strName,
      .encoderConsumed sample.SampleName,
      .finalizeHashesEv sample.SampleName]
      ++ (AddSampleRefToCSV ComputerName s1).map .csvRow, s1)

/-- `Main::WriteSample` for the directory sink (GetThis_Run.cpp:765-809):
off-limits samples are skipped entirely; otherwise the copy stream is
written to `<outdir>\<sample-name>`, hashes are finalized and the sample's
CSV rows are emitted.  Directory creation and the stream copy of the
external filesystem are modelled as succeeding. -/
def WriteSampleDirectory (lib : HashLib) (ComputerName : String) (outputDir : String)
    (sample : SampleRef) : List SinkEvent × SampleRef :=
  if sample.OffLimits then ([], sample)
  else
    let s1 := FinalizeHashes lib sample
    ([.fileWritten (outputDir ++ "\\" ++ sample.SampleName),
      .finalizeHashesEv sample.SampleName]
      ++ (AddSampleRefToCSV ComputerName s1).map .csvRow, s1)

/-- The off-limits switch of `Main::AddSamplesForMatch`
(GetThis_Run.cpp:639-654), one case per `LimitStatus` constructor exactly
as in the source. -/
def offLimitsForStatus : LimitStatus → Bool
  | .NoLimits => false
  | .SampleWithinLimits => false
  | .GlobalSampleCountLimitReached => true
  | .GlobalMaxBytesPerSample => true
  | .GlobalMaxBytesTotal => true
  | .LocalSampleCountLimitReached => true
  | .LocalMaxBytesPerSample => true
  | .LocalMaxBytesTotal => true
  | .FailedToComputeLimits => true

/-- The draft sample built at the top of the attribute loop of
`Main::AddSamplesForMatch` (GetThis_Run.cpp:619-654): the match reference,
volume serial, snapshot id (null GUID, modelled 0, when the reader is not
a snapshot reader), FRN, the attribute's instance id, the running
attribute index and the off-limits flag from the limit status. -/
def mkDraftSample (status : LimitStatus) (m : Match) (anAttr : AttributeRef)
    (sIndex : Nat) : SampleRef :=
  { Matches := [m],
    VolumeSerial := m.VolumeSerial,
    SnapshotID := match m.SnapshotID with | some g => g | none => 0,
    FRN := m.FRN,
    InstanceID := anAttr.InstanceID,
    AttributeIndex := sIndex,
    OffLimits := offLimitsForStatus status }

/-- The name-generation do-while loop of `Main::AddSamplesForMatch`
(GetThis_Run.cpp:678-695): generate a candidate with the current index,
prefix `<spec.Name>\` when the spec name is non-empty, retry with the next
index while the candidate is already reserved.  On a `CreateSampleFileName`
failure it breaks with the empty candidate and that failure code.  The
source loop terminates because some index yields an unreserved name; the
explicit `fuel` bounds the recursion and callers pass one more than the
number of reserved names. -/
def nameLoop (content : ContentSpec) (fnrec : Option FileNameRecord)
    (attrName specName : String) (names : List String) :
    Nat → Nat → String × HRes
  | 0, idx =>
    match CreateSampleFileName content fnrec attrName idx with
    | .error e => ("", e)
    | .ok n0 =>
      let cab := if specName ≠ "" then specName ++ "\\" ++ n0 else n0
      (cab, .S_OK)
  | fuel + 1, idx =>
    match CreateSampleFileName content fnrec attrName idx with
    | .error e => ("", e)
    | .ok n0 =>
      let cab := if specName ≠ "" then specName ++ "\\" ++ n0 else n0
      if names.contains cab then nameLoop content fnrec attrName specName names fuel (idx + 1)
      else (cab, .S_OK)

/-- The mutable state the ingestion callback threads through
`Main::AddSamplesForMatch`: the sample registry `Samples` and the reserved
name set `SampleNames`. -/
structure IngestState where
  Samples : List SampleRef
  SampleNames : List String
deriving DecidableEq, Repr

/-- Whether the registry already holds a sample under the key the draft
for this attribute would get. -/
def isDuplicateAttr (samples : List SampleRef) (m : Match) (anAttr : AttributeRef) : Bool :=
  (findSample samples (m.VolumeSerial, m.FRN, anAttr.InstanceID)).isSome

/-- One iteration of the matching-names loop of `Main::AddSamplesForMatch`
(GetThis_Run.cpp:670-699): set content and collection date on the draft,
run the name loop against the reserved set, reserve the winning candidate
and overwrite the draft's sample name (so the last matching name wins). -/
def nameAssignStep (CollectionDate : Nat) (aSpec : SampleSpec) (anAttr : AttributeRef)
    (acc : SampleRef × List String) (nameRef : FileReference) : SampleRef × List String :=
  let sr := { acc.1 with Content := aSpec.Content, CollectionDate := CollectionDate }
  let cab :=
    (nameLoop aSpec.Content nameRef.FILENAME anAttr.AttrName aSpec.Name
      acc.2 (acc.2.length + 1) 0).1
  ({ sr with SampleName := cab }, acc.2 ++ [cab])

/-- The non-duplicate branch of the attribute loop of
`Main::AddSamplesForMatch` (GetThis_Run.cpp:668-706): run the
matching-names loop, then configure the streams — whose result becomes the
loop's `hr` — and insert the sample into the registry even on
configuration failure. -/
def ingestNewAttr (cfg : Config) (CollectionDate : Nat) (aSpec : SampleSpec)
    (m : Match) (st : IngestState) (anAttr : AttributeRef) (draft : SampleRef) :
    IngestState × HRes :=
  let folded := m.MatchingNames.foldl (nameAssignStep CollectionDate aSpec anAttr)
    (draft, st.SampleNames)
  let cfgRes := ConfigureSampleStreams cfg folded.1
  ({ Samples := st.Samples ++ [cfgRes.1], SampleNames := folded.2 }, cfgRes.2)

/-- One iteration of the attribute loop of `Main::AddSamplesForMatch`:
build the draft, short-circuit with `S_FALSE` on a duplicate key (leaving
the registry, the reserved names and the pre-existing sample untouched),
otherwise run the insert branch; either way `hr` is overwritten. -/
def ingestAttrStep (cfg : Config) (CollectionDate : Nat) (status : LimitStatus)
    (aSpec : SampleSpec) (m : Match) (acc : IngestState × HRes)
    (ia : Nat × AttributeRef) : IngestState × HRes :=
  let draft := mkDraftSample status m ia.2 ia.1
  if isDuplicateAttr acc.1.Samples m ia.2 then (acc.1, .S_FALSE)
  else ingestNewAttr cfg CollectionDate aSpec m acc.1 ia.2 draft

/-- `Main::AddSamplesForMatch` (GetThis_Run.cpp:611-712): fold the
attribute loop over the match's attributes starting from `hr = E_FAIL`,
then return `S_FALSE` when the final `hr` is `S_FALSE` and `S_OK`
otherwise. -/
def AddSamplesForMatch (cfg : Config) (CollectionDate : Nat) (st : IngestState)
    (status : LimitStatus) (aSpec : SampleSpec) (m : Match) : IngestState × HRes :=
  let r := m.MatchingAttributes.enum.foldl
    (ingestAttrStep cfg CollectionDate status aSpec m) (st, .E_FAIL)
  (r.1, if r.2 = .S_FALSE then .S_FALSE else .S_OK)

/-- Companion fold recording, instead of `hr`, whether the attribute
processed last short-circuited as a duplicate; used to state the corrected
return-value contract of `AddSamplesForMatch`. -/
def lastAttrDupStep (cfg : Config) (CollectionDate : Nat) (status : LimitStatus)
    (aSpec : SampleSpec) (m : Match) (acc : IngestState × Bool)
    (ia : Nat × AttributeRef) : IngestState × Bool :=
  let draft := mkDraftSample status m ia.2 ia.1
  if isDuplicateAttr acc.1.Samples m ia.2 then (acc.1, true)
  else ((ingestNewAttr cfg CollectionDate aSpec m acc.1 ia.2 draft).1, false)

/-- Whether the last attribute of the match (in iteration order) was a
duplicate at its turn of the ingestion fold. -/
def lastAttrDuplicate (cfg : Config) (CollectionDate : Nat) (st : IngestState)
    (status : LimitStatus) (aSpec : SampleSpec) (m : Match) : Bool :=
  (m.MatchingAttributes.enum.foldl
    (lastAttrDupStep cfg CollectionDate status aSpec m) (st, false)).2

/-- The (min-chars, max-chars) configuration of the strings extractor
inside a stream chain, unwrapping the observing hash readers. -/
def stringsParams : Stream → Option (Nat × Nat)
  | .stringsStream _ mn mx => some (mn, mx)
  | .cryptoHashStream inner _ => stringsParams inner
  | .fuzzyHashStream inner _ => stringsParams inner
  | _ => none

/-- Concrete file-name record used by witness and counterexample
theorems: parent reference (low 2, high 0, sequence 1), four-character
name. -/
def fixtureFnRec : FileNameRecord := ⟨⟨2, 0, 1⟩, ⟨0, 0, 0, 0⟩, 4, "file"⟩

/-- Concrete matching name over `fixtureFnRec`. -/
def fixtureNameRef : FileReference := ⟨"C:\\file", some fixtureFnRec⟩

/-- Concrete matching attribute with instance id 1. -/
def fixtureAttr1 : AttributeRef := ⟨1, 128, "", .dataStream 3, .rawStream 3, none⟩

/-- Concrete matching attribute with instance id 2. -/
def fixtureAttr2 : AttributeRef := ⟨2, 128, "", .dataStream 3, .rawStream 3, none⟩

/-- Concrete one-attribute match on volume 1, FRN 7. -/
def fixtureMatch : Match := ⟨7, 1, none, ⟨0, 0, 0, 0⟩, [fixtureNameRef], [fixtureAttr1], "rule"⟩

/-- Concrete two-attribute match on volume 1, FRN 7: the first attribute
collides with `fixtureDupSample`, the second is fresh. -/
def fixtureMatch2 : Match :=
  ⟨7, 1, none, ⟨0, 0, 0, 0⟩, [fixtureNameRef], [fixtureAttr1, fixtureAttr2], "rule"⟩

/-- Concrete sample spec with no rule-set name prefix and DATA content. -/
def fixtureSpec : SampleSpec :=
  ⟨"", ⟨0, 0, 0, 0, 0, false, false, false, false⟩, ⟨.DATA, 0, 0⟩⟩

/-- Concrete configuration with no hash algorithms. -/
def fixtureCfg : Config := ⟨⟨.DATA, 0, 0⟩, 0, 0, false⟩

/-- Concrete Limits record with ignore-limits set. -/
def fixtureLimitsIgnore : Limits := ⟨0, 0, 0, 0, 0, true, false, false, false⟩

/-- Concrete registry sample occupying key (1, 7, 1). -/
def fixtureDupSample : SampleRef :=
  { VolumeSerial := 1, FRN := 7, InstanceID := 1, SampleName := "existing",
    Matches := [fixtureMatch] }

/-- Concrete ingestion state holding `fixtureDupSample`. -/
def fixtureState : IngestState := ⟨[fixtureDupSample], ["existing"]⟩

/-- Concrete off-limits sample with one match and one matching name. -/
def fixtureOffSample : SampleRef :=
  { SampleName := "off", OffLimits := true, Matches := [fixtureMatch],
    VolumeSerial := 1, FRN := 7, InstanceID := 1 }

end GetThis

namespace GetThis

/-- Associativity of string concatenation, needed to compare the
left-associated source templates with the joined spec templates. -/
theorem string_append_assoc (a b c : String) : a ++ b ++ c = a ++ (b ++ c) := by
  apply String.ext
  simp [String.data_append, List.append_assoc]

/-- Character data of the one-underscore literal. -/
theorem data_underscore : ("_" : String).data = ['_'] := rfl

/-- Character data of the two-underscore literal. -/
theorem data_underscore2 : ("__" : String).data = ['_', '_'] := rfl

/-- Character data of the empty literal. -/
theorem data_empty_str : ("" : String).data = [] := rfl

/-- C1: for every pair of Limits records and every data size,
`Main::SampleLimitStatus` returns `NoLimits` when global ignore-limits is
set and otherwise evaluates, first trigger wins, the checks in the order
global count, local count, global per-sample bytes, global total bytes
(data-size + accumulated vs. max), local per-sample bytes, local total
bytes — each check skipped when its maximum is the unlimited sentinel —
returning `SampleWithinLimits` when no check triggers. -/
theorem sampleLimitStatus_eq_spec (g l : Limits) (DataSize : Nat) :
    SampleLimitStatus g l DataSize = sampleLimitStatusSpec g l DataSize := by
  unfold SampleLimitStatus sampleLimitStatusSpec
  by_cases h0 : g.bIgnoreLimits
  · simp [h0]
  · by_cases h1 : g.dwMaxSampleCount ≠ INFINITE ∧
        g.dwAccumulatedSampleCount ≥ g.dwMaxSampleCount <;>
    by_cases h2 : l.dwMaxSampleCount ≠ INFINITE ∧
        l.dwAccumulatedSampleCount ≥ l.dwMaxSampleCount <;>
    by_cases h3 : g.dwlMaxBytesPerSample ≠ INFINITE ∧
        DataSize > g.dwlMaxBytesPerSample <;>
    by_cases h4 : g.dwlMaxBytesTotal ≠ INFINITE ∧
        DataSize + g.dwlAccumulatedBytesTotal > g.dwlMaxBytesTotal <;>
    by_cases h5 : l.dwlMaxBytesPerSample ≠ INFINITE ∧
        DataSize > l.dwlMaxBytesPerSample <;>
    by_cases h6 : l.dwlMaxBytesTotal ≠ INFINITE ∧
        DataSize + l.dwlAccumulatedBytesTotal > l.dwlMaxBytesTotal <;>
    simp [firstTriggered, h0, h1, h2, h3, h4, h5, h6]

/-- C6: for every non-null file-name record, `Main::CreateSampleFileName`
produces exactly the name described by the specification: the three
fixed-width hex fields of the parent-directory reference (sequence number,
segment-high, segment-low, each printed with twice its byte width in hex
digits), then the file name truncated to name-length, then the attribute
data-name when non-empty, then the decimal index when `idx > 0`, then the
content tag, joined per the four idx-by-data-name templates, with every
whitespace, `:` and `#` character of the result replaced by `_`. -/
theorem createSampleFileName_eq_spec (content : ContentSpec) (fn : FileNameRecord)
    (DataName : String) (idx : Nat) :
    CreateSampleFileName content (some fn) DataName idx =
      .ok (sampleNameSpec content fn DataName idx) := by
  unfold CreateSampleFileName sampleNameSpec parentRefHex
  by_cases hi : idx = 0 <;> by_cases hd : DataName = "" <;>
    simp only [hi, hd, if_true, if_false, ite_true, ite_false, ne_eq,
      not_true_eq_false, not_false_eq_true, Except.ok.injEq] <;>
    apply congrArg sanitizeSampleName <;>
    simp only [joinParts] <;>
    apply String.ext <;>
    simp [String.data_append, data_underscore, data_underscore2, data_empty_str]


/-- C8: for every input where the file-name record is absent,
`Main::CreateSampleFileName` fails — with `E_POINTER`, the HRESULT the
specification's §7 classifies as the *InvalidArgument* kind — and assigns
no name (the error result carries none). -/
theorem createSampleFileName_null_record (content : ContentSpec) (DataName : String)
    (idx : Nat) :
    CreateSampleFileName content none DataName idx = .error .E_POINTER ∧
      errorKindOf .E_POINTER = some .InvalidArgument :=
  ⟨rfl, rfl⟩

/-- C7: for every sample with a STRINGS content spec (and a non-empty
sample name, so that stream configuration runs), the strings extractor
wrapping the data stream is configured with the sample's own
(min-chars, max-chars), except when both are zero, in which case it is
configured with the global configuration's values. -/
theorem configureStreams_strings_minmax (cfg : Config) (s : SampleRef)
    (hty : s.Content.ctype = .STRINGS) (hname : s.SampleName ≠ "") :
    ∃ st, (ConfigureSampleStreams cfg s).1.CopyStream = some st ∧
      stringsParams st =
        some (if s.Content.MinChars = 0 ∧ s.Content.MaxChars = 0
          then (cfg.content.MinChars, cfg.content.MaxChars)
          else (s.Content.MinChars, s.Content.MaxChars)) := by
  unfold ConfigureSampleStreams
  rw [if_neg hname]
  by_cases hmx : s.Content.MaxChars = 0 <;> by_cases hmn : s.Content.MinChars = 0 <;>
  by_cases hc : cfg.CryptoHashAlgs = 0 <;> by_cases hf : cfg.FuzzyHashAlgs = 0 <;>
    simp [hty, hmx, hmn, hc, hf, stringsParams]

/-- Closed instantiation of `configureStreams_strings_minmax` at a
concrete STRINGS sample whose bounds are both zero, falling back to the
global (4, 16). -/
theorem configureStreams_strings_minmax_witness :
    ∃ st,
      (ConfigureSampleStreams ⟨⟨.STRINGS, 4, 16⟩, 1, 0, false⟩
        { SampleName := "n", Content := ⟨.STRINGS, 0, 0⟩ }).1.CopyStream = some st ∧
      stringsParams st =
        some (if (0 : Nat) = 0 ∧ (0 : Nat) = 0 then ((4 : Nat), (16 : Nat))
          else (0, 0)) :=
  configureStreams_strings_minmax ⟨⟨.STRINGS, 4, 16⟩, 1, 0, false⟩
    { SampleName := "n", Content := ⟨.STRINGS, 0, 0⟩ } rfl (by decide)


/-- Stream configuration does not touch the off-limits flag, the match
list or the fuzzy-digest buffers of the sample. -/
theorem configure_preserves (cfg : Config) (s : SampleRef) :
    (ConfigureSampleStreams cfg s).1.OffLimits = s.OffLimits ∧
    (ConfigureSampleStreams cfg s).1.Matches = s.Matches ∧
    (ConfigureSampleStreams cfg s).1.SSDeep = s.SSDeep ∧
    (ConfigureSampleStreams cfg s).1.TLSH = s.TLSH := by
  unfold ConfigureSampleStreams
  split <;> simp

/-- C10: for every sample whose crypto-hash stream is absent because no
crypto algorithms are configured, stream configuration leaves the hash
stream absent (while still chaining a fuzzy-hash stream when fuzzy
algorithms are configured), `Main::FinalizeHashes` returns the sample
unchanged, and the SSDEEP and TLSH columns (26 and 27) of every CSV row of
the sample stay empty. -/
theorem finalizeHashes_no_crypto (lib : HashLib) (cfg : Config) (cn : String)
    (s : SampleRef) (hc : cfg.CryptoHashAlgs = 0) (hh : s.HashStream = none)
    (hss : s.SSDeep = []) (htl : s.TLSH = []) (hname : s.SampleName ≠ "") :
    (ConfigureSampleStreams cfg s).1.HashStream = none ∧
    (cfg.FuzzyHashAlgs ≠ 0 →
      ∃ f, (ConfigureSampleStreams cfg s).1.FuzzyHashStream = some f) ∧
    FinalizeHashes lib (ConfigureSampleStreams cfg s).1 =
      (ConfigureSampleStreams cfg s).1 ∧
    ∀ row ∈ AddSampleRefToCSV cn (FinalizeHashes lib (ConfigureSampleStreams cfg s).1),
      row[25]? = some (Field.bytes []) ∧ row[26]? = some (Field.bytes []) := by
  have hpres := configure_preserves cfg s
  have h1 : (ConfigureSampleStreams cfg s).1.HashStream = none := by
    unfold ConfigureSampleStreams
    rw [if_neg hname]
    simp [hc, hh]
  have h3 : FinalizeHashes lib (ConfigureSampleStreams cfg s).1 =
      (ConfigureSampleStreams cfg s).1 := by
    unfold FinalizeHashes
    rw [h1]
  refine ⟨h1, ?_, h3, ?_⟩
  · intro hf
    unfold ConfigureSampleStreams
    rw [if_neg hname]
    simp [hf]
  · intro row hrow
    rw [h3] at hrow
    simp only [AddSampleRefToCSV, List.mem_flatMap, List.mem_map] at hrow
    obtain ⟨m, _, name, _, hrw⟩ := hrow
    subst hrw
    have hssd : (ConfigureSampleStreams cfg s).1.SSDeep = [] := by
      rw [hpres.2.2.1, hss]
    have htls : (ConfigureSampleStreams cfg s).1.TLSH = [] := by
      rw [hpres.2.2.2, htl]
    simp [csvRowForName, hssd, htls]

/-- Closed instantiation of `finalizeHashes_no_crypto`: fuzzy algorithms
configured (1) but no crypto algorithms, on a fresh one-match sample. -/
theorem finalizeHashes_no_crypto_witness :
    ((ConfigureSampleStreams ⟨⟨.DATA, 0, 0⟩, 0, 1, false⟩
        { SampleName := "n" }).1.HashStream = none) ∧
    ((1 : Nat) ≠ 0 → ∃ f, (ConfigureSampleStreams ⟨⟨.DATA, 0, 0⟩, 0, 1, false⟩
        { SampleName := "n" }).1.FuzzyHashStream = some f) ∧
    (FinalizeHashes trivialHashLib (ConfigureSampleStreams ⟨⟨.DATA, 0, 0⟩, 0, 1, false⟩
        { SampleName := "n" }).1 =
      (ConfigureSampleStreams ⟨⟨.DATA, 0, 0⟩, 0, 1, false⟩ { SampleName := "n" }).1) ∧
    ∀ row ∈ AddSampleRefToCSV "PC"
        (FinalizeHashes trivialHashLib (ConfigureSampleStreams ⟨⟨.DATA, 0, 0⟩, 0, 1, false⟩
          { SampleName := "n" }).1),
      row[25]? = some (Field.bytes []) ∧ row[26]? = some (Field.bytes []) :=
  finalizeHashes_no_crypto trivialHashLib ⟨⟨.DATA, 0, 0⟩, 0, 1, false⟩ "PC"
    { SampleName := "n" } rfl rfl rfl rfl (by decide)


/-- The matching-names fold changes only content, collection date and
sample name: the off-limits flag and match list pass through. -/
theorem nameFold_preserves (cd : Nat) (aSpec : SampleSpec) (anAttr : AttributeRef) :
    ∀ (l : List FileReference) (acc : SampleRef × List String),
      ((l.foldl (nameAssignStep cd aSpec anAttr) acc).1).OffLimits = acc.1.OffLimits ∧
      ((l.foldl (nameAssignStep cd aSpec anAttr) acc).1).Matches = acc.1.Matches := by
  intro l
  induction l with
  | nil => intro acc; exact ⟨rfl, rfl⟩
  | cons x xs ih =>
    intro acc
    simp only [List.foldl_cons]
    constructor
    · rw [(ih (nameAssignStep cd aSpec anAttr acc x)).1]
      simp [nameAssignStep]
    · rw [(ih (nameAssignStep cd aSpec anAttr acc x)).2]
      simp [nameAssignStep]

/-- The insert branch appends exactly one sample, which keeps the draft's
off-limits flag and match list. -/
theorem ingestNewAttr_samples (cfg : Config) (cd : Nat) (aSpec : SampleSpec)
    (m : Match) (st : IngestState) (anAttr : AttributeRef) (draft : SampleRef) :
    ∃ t, (ingestNewAttr cfg cd aSpec m st anAttr draft).1.Samples = st.Samples ++ [t] ∧
      t.OffLimits = draft.OffLimits ∧ t.Matches = draft.Matches := by
  refine ⟨_, rfl, ?_, ?_⟩
  · rw [(configure_preserves _ _).1,
      (nameFold_preserves cd aSpec anAttr m.MatchingNames (draft, st.SampleNames)).1]
  · rw [(configure_preserves _ _).2.1,
      (nameFold_preserves cd aSpec anAttr m.MatchingNames (draft, st.SampleNames)).2]

/-- Stream configuration never returns `S_FALSE`. -/
theorem configure_ne_sfalse (cfg : Config) (s : SampleRef) :
    (ConfigureSampleStreams cfg s).2 ≠ .S_FALSE := by
  unfold ConfigureSampleStreams
  split <;> simp

/-- The insert branch never reports `S_FALSE` (its result is the stream
configuration's result). -/
theorem ingestNewAttr_ne_sfalse (cfg : Config) (cd : Nat) (aSpec : SampleSpec)
    (m : Match) (st : IngestState) (anAttr : AttributeRef) (draft : SampleRef) :
    (ingestNewAttr cfg cd aSpec m st anAttr draft).2 ≠ .S_FALSE :=
  configure_ne_sfalse cfg _

/-- Every sample in the registry after folding the attribute loop was
either already there or was created with the off-limits flag of the limit
status and the singleton match list. -/
theorem ingest_fold_mem (cfg : Config) (cd : Nat) (status : LimitStatus)
    (aSpec : SampleSpec) (m : Match) :
    ∀ (l : List (Nat × AttributeRef)) (acc : IngestState × HRes) (s : SampleRef),
      s ∈ (l.foldl (ingestAttrStep cfg cd status aSpec m) acc).1.Samples →
      s ∈ acc.1.Samples ∨
        (s.OffLimits = offLimitsForStatus status ∧ s.Matches = [m]) := by
  intro l
  induction l with
  | nil => intro acc s h; exact Or.inl h
  | cons ia xs ih =>
    intro acc s h
    simp only [List.foldl_cons] at h
    rcases ih _ s h with h' | hP
    · simp only [ingestAttrStep] at h'
      by_cases hdup : isDuplicateAttr acc.1.Samples m ia.2
      · rw [if_pos hdup] at h'
        exact Or.inl h'
      · rw [if_neg hdup] at h'
        obtain ⟨t, heq, hOff, hM⟩ :=
          ingestNewAttr_samples cfg cd aSpec m acc.1 ia.2 (mkDraftSample status m ia.2 ia.1)
        rw [heq] at h'
        rcases List.mem_append.1 h' with h2 | h2
        · exact Or.inl h2
        · right
          have hst : s = t := by simpa using h2
          subst hst
          exact ⟨hOff, hM⟩
    · exact Or.inr hP

/-- Samples already in the registry survive the attribute loop
unchanged. -/
theorem ingest_fold_preserve_mem (cfg : Config) (cd : Nat) (status : LimitStatus)
    (aSpec : SampleSpec) (m : Match) :
    ∀ (l : List (Nat × AttributeRef)) (acc : IngestState × HRes) (s : SampleRef),
      s ∈ acc.1.Samples →
      s ∈ (l.foldl (ingestAttrStep cfg cd status aSpec m) acc).1.Samples := by
  intro l
  induction l with
  | nil => intro acc s h; exact h
  | cons ia xs ih =>
    intro acc s h
    simp only [List.foldl_cons]
    refine ih _ s ?_
    simp only [ingestAttrStep]
    by_cases hdup : isDuplicateAttr acc.1.Samples m ia.2
    · rw [if_pos hdup]
      exact h
    · rw [if_neg hdup]
      obtain ⟨t, heq, -, -⟩ :=
        ingestNewAttr_samples cfg cd aSpec m acc.1 ia.2 (mkDraftSample status m ia.2 ia.1)
      rw [heq]
      exact List.mem_append_left _ h

/-- C4: the ingestion off-limits switch sets `off-limits = true` exactly
for statuses other than `NoLimits` and `SampleWithinLimits`; every sample
created by `AddSamplesForMatch` carries that flag for its status; and in a
run whose global limits have ignore-limits set (so every status evaluates
to `NoLimits`), every sample in the registry has `off-limits = false`. -/
theorem offLimits_matches_status (cfg : Config) (cd : Nat) (st : IngestState)
    (aSpec : SampleSpec) (m : Match) :
    (∀ status : LimitStatus, offLimitsForStatus status = true ↔
      (status ≠ .NoLimits ∧ status ≠ .SampleWithinLimits)) ∧
    (∀ (status : LimitStatus) (s : SampleRef),
      s ∈ (AddSamplesForMatch cfg cd st status aSpec m).1.Samples →
      s ∈ st.Samples ∨ s.OffLimits = offLimitsForStatus status) ∧
    (∀ (g l : Limits) (d : Nat), g.bIgnoreLimits = true →
      (∀ s ∈ st.Samples, s.OffLimits = false) →
      ∀ s ∈ (AddSamplesForMatch cfg cd st (SampleLimitStatus g l d) aSpec m).1.Samples,
        s.OffLimits = false) := by
  refine ⟨?_, ?_, ?_⟩
  · intro status
    cases status <;> simp [offLimitsForStatus]
  · intro status s h
    simp only [AddSamplesForMatch] at h
    rcases ingest_fold_mem cfg cd status aSpec m m.MatchingAttributes.enum (st, .E_FAIL) s h
      with h' | hP
    · exact Or.inl h'
    · exact Or.inr hP.1
  · intro g l d hg hinv s h
    have hstat : SampleLimitStatus g l d = .NoLimits := by
      simp [SampleLimitStatus, hg]
    rw [hstat] at h
    simp only [AddSamplesForMatch] at h
    rcases ingest_fold_mem cfg cd .NoLimits aSpec m m.MatchingAttributes.enum (st, .E_FAIL) s h
      with h' | hP
    · exact hinv s h'
    · exact hP.1

/-- Closed instantiation of `offLimits_matches_status`: in an
ignore-limits run over an empty registry, the sample the ingestion
produced has `off-limits = false`. -/
theorem offLimits_matches_status_witness :
    ((AddSamplesForMatch fixtureCfg 0 ⟨[], []⟩
        (SampleLimitStatus fixtureLimitsIgnore fixtureLimitsIgnore 5) fixtureSpec
        fixtureMatch).1.Samples.headD default).OffLimits = false :=
  (offLimits_matches_status fixtureCfg 0 ⟨[], []⟩ fixtureSpec fixtureMatch).2.2
    fixtureLimitsIgnore fixtureLimitsIgnore 5 rfl (by simp)
    ((AddSamplesForMatch fixtureCfg 0 ⟨[], []⟩
        (SampleLimitStatus fixtureLimitsIgnore fixtureLimitsIgnore 5) fixtureSpec
        fixtureMatch).1.Samples.headD default) (by decide)


/-- Correspondence between the `hr` fold of `AddSamplesForMatch` and the
companion duplicate-flag fold: the registries coincide and the fold's
result is `S_FALSE` exactly when the flag is set. -/
theorem ingest_fold_dup_corr (cfg : Config) (cd : Nat) (status : LimitStatus)
    (aSpec : SampleSpec) (m : Match) :
    ∀ (l : List (Nat × AttributeRef)) (st0 : IngestState) (hr : HRes) (b : Bool),
      (hr = .S_FALSE ↔ b = true) →
      (l.foldl (ingestAttrStep cfg cd status aSpec m) (st0, hr)).1 =
        (l.foldl (lastAttrDupStep cfg cd status aSpec m) (st0, b)).1 ∧
      ((l.foldl (ingestAttrStep cfg cd status aSpec m) (st0, hr)).2 = .S_FALSE ↔
        (l.foldl (lastAttrDupStep cfg cd status aSpec m) (st0, b)).2 = true) := by
  intro l
  induction l with
  | nil => intro st0 hr b hrel; exact ⟨rfl, hrel⟩
  | cons ia xs ih =>
    intro st0 hr b hrel
    simp only [List.foldl_cons, ingestAttrStep, lastAttrDupStep]
    by_cases hdup : isDuplicateAttr st0.Samples m ia.2
    · rw [if_pos hdup, if_pos hdup]
      exact ih st0 .S_FALSE true (by simp)
    · rw [if_neg hdup, if_neg hdup]
      have hne := ingestNewAttr_ne_sfalse cfg cd aSpec m st0 ia.2
        (mkDraftSample status m ia.2 ia.1)
      have h := ih (ingestNewAttr cfg cd aSpec m st0 ia.2 (mkDraftSample status m ia.2 ia.1)).1
        (ingestNewAttr cfg cd aSpec m st0 ia.2 (mkDraftSample status m ia.2 ia.1)).2 false
        (by simp [hne])
      rw [Prod.mk.eta] at h
      exact h

/-- C3 counterexample: `fixtureMatch2` carries a duplicate first attribute
(its key (1, 7, 1) is occupied in `fixtureState`) and a fresh second
attribute, yet `AddSamplesForMatch` returns `S_OK` — the claim demands
`AlreadyPresent` (`S_FALSE`) whenever at least one attribute is a
duplicate. -/
theorem addSamplesForMatch_any_dup_counterexample :
    isDuplicateAttr fixtureState.Samples fixtureMatch2 fixtureAttr1 = true ∧
    (AddSamplesForMatch fixtureCfg 0 fixtureState .SampleWithinLimits fixtureSpec
      fixtureMatch2).2 = .S_OK := by
  constructor
  · decide
  · decide

/-- C3 (amended): `AddSamplesForMatch` returns `AlreadyPresent`
(`S_FALSE`) iff the *last* attribute of the match, in iteration order, was
a duplicate at its turn — the per-attribute result variable is overwritten,
so an earlier duplicate followed by a fresh attribute yields `Ok` — and for
a duplicate attribute the step does no work at all: no name is generated,
nothing is reserved and no sample is inserted (the state is returned
untouched). -/
theorem addSamplesForMatch_last_dup (cfg : Config) (cd : Nat) (st : IngestState)
    (status : LimitStatus) (aSpec : SampleSpec) (m : Match) :
    ((AddSamplesForMatch cfg cd st status aSpec m).2 = .S_FALSE ↔
      lastAttrDuplicate cfg cd st status aSpec m = true) ∧
    (∀ (acc : IngestState × HRes) (ia : Nat × AttributeRef),
      isDuplicateAttr acc.1.Samples m ia.2 = true →
      ingestAttrStep cfg cd status aSpec m acc ia = (acc.1, .S_FALSE)) := by
  constructor
  · have h := (ingest_fold_dup_corr cfg cd status aSpec m m.MatchingAttributes.enum st
      .E_FAIL false (by simp)).2
    simp only [AddSamplesForMatch, lastAttrDuplicate]
    constructor
    · intro hif
      by_cases hr2 : (m.MatchingAttributes.enum.foldl
          (ingestAttrStep cfg cd status aSpec m) (st, .E_FAIL)).2 = .S_FALSE
      · exact h.mp hr2
      · rw [if_neg hr2] at hif
        exact absurd hif (by simp)
    · intro hb
      rw [if_pos (h.mpr hb)]
  · intro acc ia hdup
    simp only [ingestAttrStep]
    rw [if_pos hdup]

/-- Closed instantiation of `addSamplesForMatch_last_dup`: the duplicate
step over `fixtureState` returns the state untouched with `S_FALSE`. -/
theorem addSamplesForMatch_last_dup_witness :
    ingestAttrStep fixtureCfg 0 .SampleWithinLimits fixtureSpec fixtureMatch2
      (fixtureState, .E_FAIL) (0, fixtureAttr1) = (fixtureState, .S_FALSE) :=
  (addSamplesForMatch_last_dup fixtureCfg 0 fixtureState .SampleWithinLimits fixtureSpec
    fixtureMatch2).2 (fixtureState, .E_FAIL) (0, fixtureAttr1) (by decide)

/-- `FinalizeHashes` never changes the match list. -/
theorem finalizeHashes_matches (lib : HashLib) (s : SampleRef) :
    (FinalizeHashes lib s).Matches = s.Matches := by
  unfold FinalizeHashes
  cases hs : s.HashStream
  · rfl
  · cases hf : s.FuzzyHashStream <;> simp [hf]

/-- C9: given a registry whose samples each hold exactly one match, every
sample after ingestion still holds exactly one match (created samples
store only the ingested match); pre-existing samples survive ingestion
unchanged; a duplicate key short-circuits with the state entirely
untouched, so the duplicate match is never attached; and the CSV rows of a
sample with a single stored match come from that match's matching names
only. -/
theorem registry_one_match_per_sample (cfg : Config) (cd : Nat) (st : IngestState)
    (status : LimitStatus) (aSpec : SampleSpec) (m : Match) (cn : String)
    (hinv : ∀ s ∈ st.Samples, s.Matches.length = 1) :
    (∀ s ∈ (AddSamplesForMatch cfg cd st status aSpec m).1.Samples,
      s.Matches.length = 1) ∧
    (∀ s ∈ st.Samples, s ∈ (AddSamplesForMatch cfg cd st status aSpec m).1.Samples) ∧
    (∀ (acc : IngestState × HRes) (ia : Nat × AttributeRef),
      isDuplicateAttr acc.1.Samples m ia.2 = true →
      ingestAttrStep cfg cd status aSpec m acc ia = (acc.1, .S_FALSE)) ∧
    (∀ (s : SampleRef) (m0 : Match), s.Matches = [m0] →
      AddSampleRefToCSV cn s = m0.MatchingNames.map (csvRowForName cn s m0)) := by
  refine ⟨?_, ?_, ?_, ?_⟩
  · intro s h
    simp only [AddSamplesForMatch] at h
    rcases ingest_fold_mem cfg cd status aSpec m m.MatchingAttributes.enum (st, .E_FAIL) s h
      with h' | hP
    · exact hinv s h'
    · rw [hP.2]
      rfl
  · intro s h
    simp only [AddSamplesForMatch]
    exact ingest_fold_preserve_mem cfg cd status aSpec m m.MatchingAttributes.enum
      (st, .E_FAIL) s h
  · intro acc ia hdup
    simp only [ingestAttrStep]
    rw [if_pos hdup]
  · intro s m0 hM
    simp [AddSampleRefToCSV, hM]

/-- Closed instantiation of `registry_one_match_per_sample`: the CSV rows
of the single-match sample `fixtureDupSample` come from its stored match
only. -/
theorem registry_one_match_per_sample_witness :
    AddSampleRefToCSV "PC" fixtureDupSample =
      fixtureMatch.MatchingNames.map (csvRowForName "PC" fixtureDupSample fixtureMatch) :=
  (registry_one_match_per_sample fixtureCfg 0 fixtureState .SampleWithinLimits fixtureSpec
    fixtureMatch2 "PC" (by decide)).2.2.2 fixtureDupSample fixtureMatch rfl

/-- C5: for every non-off-limits sample (holding its single match), the
archive sink's event trace is exactly the entry start, the encoder's
consumption of the copy stream, then — inside the per-entry completion
callback — hash finalization followed by the sample's CSV rows; the row
set is emitted exactly once, one row per matching name of the match. -/
theorem writeSampleArchive_callback (lib : HashLib) (cn : String) (s : SampleRef)
    (m : Match) (hOff : s.OffLimits = false) (hM : s.Matches = [m]) :
    (WriteSampleArchive lib cn s).1 =
      [SinkEvent.addStreamStart s.SampleName (GetMatchFullName m),
        SinkEvent.encoderConsumed s.SampleName,
        SinkEvent.finalizeHashesEv s.SampleName]
      ++ (AddSampleRefToCSV cn (FinalizeHashes lib s)).map SinkEvent.csvRow ∧
    (AddSampleRefToCSV cn (FinalizeHashes lib s)).length = m.MatchingNames.length := by
  constructor
  · unfold WriteSampleArchive
    rw [if_neg (by simp [hOff])]
    simp [hM]
  · simp [AddSampleRefToCSV, finalizeHashes_matches, hM]

/-- Closed instantiation of `writeSampleArchive_callback` at a concrete
in-limits sample over `fixtureMatch`. -/
theorem writeSampleArchive_callback_witness :
    (WriteSampleArchive trivialHashLib "PC"
        { SampleName := "n", Matches := [fixtureMatch] }).1 =
      [SinkEvent.addStreamStart "n" (GetMatchFullName fixtureMatch),
        SinkEvent.encoderConsumed "n",
        SinkEvent.finalizeHashesEv "n"]
      ++ (AddSampleRefToCSV "PC" (FinalizeHashes trivialHashLib
          { SampleName := "n", Matches := [fixtureMatch] })).map SinkEvent.csvRow ∧
    (AddSampleRefToCSV "PC" (FinalizeHashes trivialHashLib
        { SampleName := "n", Matches := [fixtureMatch] })).length =
      fixtureMatch.MatchingNames.length :=
  writeSampleArchive_callback trivialHashLib "PC"
    { SampleName := "n", Matches := [fixtureMatch] } fixtureMatch rfl rfl

/-- C2 (code bug): for the off-limits sample `fixtureOffSample`, both sink
writes skip the sample entirely — no archive entry, no file bytes, and in
particular no CSV row at all — although the row emitter, were it invoked,
would produce the sample's single row with column 6 (sample name) written
empty.  The in-code off-limits branches of `AddSampleRefToCSV` and
`FinalizeHashes` are unreachable from the sink writes. -/
theorem writeSample_offLimits_skips_row :
    fixtureOffSample.OffLimits = true ∧
    (WriteSampleArchive trivialHashLib "PC" fixtureOffSample).1 = [] ∧
    (WriteSampleDirectory trivialHashLib "PC" "out" fixtureOffSample).1 = [] ∧
    (AddSampleRefToCSV "PC" fixtureOffSample).length = 1 ∧
    ∀ row ∈ AddSampleRefToCSV "PC" fixtureOffSample,
      row[5]? = some Field.nothing := by
  refine ⟨rfl, rfl, rfl, rfl, ?_⟩
  decide

end GetThis
